import Mathlib

/-!
Verification of the typeshare Python emission engine against its
natural-language specification.

The development embeds, as Lean definitions:

* the Python helper functions that the generator emits verbatim into every
  output module that needs them (`deserialize_binary_data`,
  `serialize_binary_data`, `parse_rfc3339`, `serialize_datetime_data`),
  translated from `src/core/data/tests/test_byte_translation/output.py` and
  `src/core/data/tests/test_serde_iso8601/output.py`;
* the emitted declaration lists of the checked-in output modules under
  `src/`, as data (name, kind, strong/weak type references), used to check
  ordering and enum-shape claims against the generator's actual output;
* models of the engine components whose source is not part of this tree
  (Enum Tagging Engine, Case/Naming Resolver, Literal Renderer), each marked
  `Modelled from the spec:` in its doc comment.
-/

/-! ## A model of Python runtime values as they arrive from JSON decoding.

`pyBool` is kept distinct from `pyInt` because JSON distinguishes `true`
from `1`; Python's `isinstance(x, int)` nevertheless accepts `bool`, which
`isInstInt` reflects. -/

inductive PyVal where
  | pyInt (n : Int)
  | pyBool (b : Bool)
  | pyStr (s : String)
  | pyList (xs : List PyVal)
  | pyBytes (bs : List Nat)
  | pyNone

/-- Python's `isinstance(x, int)`: `bool` is a subclass of `int`. -/
def isInstInt : PyVal → Bool
  | .pyInt _ => true
  | .pyBool _ => true
  | _ => false

/-- The integer value Python arithmetic and comparisons see (`True == 1`). -/
def intVal : PyVal → Int
  | .pyInt n => n
  | .pyBool b => if b then 1 else 0
  | _ => 0

/-- Whether a JSON wire value is an integer (not a boolean, string, ...). -/
def isIntegerWire : PyVal → Bool
  | .pyInt _ => true
  | _ => false

/-- Python exceptions raised by the emitted codec helpers. -/
inductive PyErr where
  | valueError (msg : String)
  | typeError (msg : String)

/-- The per-element test `isinstance(x, int) and 0 <= x <= 255` from
`deserialize_binary_data`. -/
def byteOk (x : PyVal) : Bool :=
  isInstInt x && decide (0 ≤ intVal x ∧ intVal x ≤ 255)

/-- Embedded from `src/core/data/tests/test_byte_translation/output.py`:
`deserialize_binary_data` checks a list (all elements int instances in
0..255), passes `bytes` through, and raises otherwise. -/
def deserialize_binary_data (v : PyVal) : Except PyErr (List Nat) :=
  match v with
  | .pyList xs =>
    if xs.all byteOk then
      .ok (xs.map fun x => (intVal x).toNat)
    else
      .error (.valueError "All elements must be integers in the range 0-255 (u8).")
  | .pyBytes bs => .ok bs
  | _ => .error (.typeError "Content must be a list of integers (0-255) or bytes.")

/-- Embedded from the same file: `serialize_binary_data` emits `list(value)`,
one integer per byte in original order. -/
def serialize_binary_data (bs : List Nat) : PyVal :=
  .pyList (bs.map fun b => .pyInt (Int.ofNat b))

lemma all_byteOk_of_intRange (xs : List Int) (h : ∀ x ∈ xs, 0 ≤ x ∧ x ≤ 255) :
    (xs.map PyVal.pyInt).all byteOk = true := by
  induction xs with
  | nil => rfl
  | cons a t ih =>
    have ha := h a (List.mem_cons_self a t)
    have ht := ih fun x hx => h x (List.mem_cons_of_mem a hx)
    simp only [List.map_cons, List.all_cons, ht, Bool.and_true]
    simp [byteOk, isInstInt, intVal, ha.1, ha.2]

lemma map_ofNat_toNat (xs : List Int) (h : ∀ x ∈ xs, 0 ≤ x) :
    xs.map (fun x => PyVal.pyInt (Int.ofNat (Int.toNat x))) = xs.map PyVal.pyInt := by
  induction xs with
  | nil => rfl
  | cons a t ih =>
    simp only [List.map_cons]
    rw [show Int.ofNat (Int.toNat a) = a from Int.toNat_of_nonneg (h a (List.mem_cons_self a t)),
      ih fun x hx => h x (List.mem_cons_of_mem a hx)]

lemma all_byteOk_false_of_bad (xs : List PyVal)
    (h : ∃ x ∈ xs, isInstInt x = false ∨ intVal x < 0 ∨ 255 < intVal x) :
    xs.all byteOk = false := by
  obtain ⟨x, hx, hbad⟩ := h
  cases hb : xs.all byteOk with
  | false => rfl
  | true =>
    have := (List.all_eq_true.mp hb) x hx
    rcases hbad with h1 | h2 | h3
    · simp [byteOk, h1] at this
    · simp only [byteOk, Bool.and_eq_true, decide_eq_true_eq] at this
      omega
    · simp only [byteOk, Bool.and_eq_true, decide_eq_true_eq] at this
      omega

/-- C2 (amended): for lists of integer wire values in 0..255 the decoder
succeeds and the encoder reproduces the original wire value; the decoder
raises `ValueError` when any element fails the `isinstance(x, int) and
0 <= x <= 255` test (Python's `bool` counts as an `int` instance), and
raises `TypeError` on any wire value that is neither a list nor an
already-correct byte sequence. -/
theorem byte_codec_contract :
    (∀ xs : List Int, (∀ x ∈ xs, 0 ≤ x ∧ x ≤ 255) →
      deserialize_binary_data (.pyList (xs.map PyVal.pyInt)) = .ok (xs.map Int.toNat) ∧
      serialize_binary_data (xs.map Int.toNat) = .pyList (xs.map PyVal.pyInt)) ∧
    (∀ xs : List PyVal,
      (∃ x ∈ xs, isInstInt x = false ∨ intVal x < 0 ∨ 255 < intVal x) →
      deserialize_binary_data (.pyList xs) =
        .error (.valueError "All elements must be integers in the range 0-255 (u8).")) ∧
    (∀ v : PyVal, (∀ xs, v ≠ .pyList xs) → (∀ bs, v ≠ .pyBytes bs) →
      deserialize_binary_data v =
        .error (.typeError "Content must be a list of integers (0-255) or bytes.")) := by
  refine ⟨fun xs h => ?_, fun xs h => ?_, fun v h1 h2 => ?_⟩
  · have hall := all_byteOk_of_intRange xs h
    constructor
    · simp only [deserialize_binary_data, hall, if_true, List.map_map]
      rfl
    · simp only [serialize_binary_data, List.map_map]
      rw [show ((fun b => PyVal.pyInt (Int.ofNat b)) ∘ Int.toNat) =
          fun x => PyVal.pyInt (Int.ofNat (Int.toNat x)) from rfl]
      rw [map_ofNat_toNat xs fun x hx => (h x hx).1]
  · have hall := all_byteOk_false_of_bad xs h
    simp [deserialize_binary_data, hall]
  · cases v with
    | pyInt n => rfl
    | pyBool b => rfl
    | pyStr s => rfl
    | pyList xs => exact absurd rfl (h1 xs)
    | pyBytes bs => exact absurd rfl (h2 bs)
    | pyNone => rfl

/-- Witness for `byte_codec_contract` at concrete inputs. -/
theorem byte_codec_contract_witness :
    (deserialize_binary_data (.pyList [.pyInt 0, .pyInt 255]) = .ok [0, 255] ∧
      serialize_binary_data [0, 255] = .pyList [.pyInt 0, .pyInt 255]) ∧
    deserialize_binary_data (.pyList [.pyInt 300]) =
      .error (.valueError "All elements must be integers in the range 0-255 (u8).") ∧
    deserialize_binary_data (.pyStr "nope") =
      .error (.typeError "Content must be a list of integers (0-255) or bytes.") := by
  refine ⟨byte_codec_contract.1 [0, 255] (by decide), ?_, ?_⟩
  · exact byte_codec_contract.2.1 [.pyInt 300]
      ⟨.pyInt 300, List.mem_singleton.mpr rfl, Or.inr (Or.inr (by decide))⟩
  · exact byte_codec_contract.2.2 (.pyStr "nope")
      (fun xs h => nomatch h) (fun bs h => nomatch h)

/-- C2 counterexample: a JSON array holding the boolean wire value `true`
(not an integer wire type) is accepted by the decoder rather than
rejected, so "decode fails for any element of a non-integer wire type" is
false as stated. -/
theorem bytes_bool_wire_accepted :
    isIntegerWire (.pyBool true) = false ∧
    deserialize_binary_data (.pyList [.pyBool true]) = .ok [1] :=
  ⟨rfl, rfl⟩

lemma map_pyBool_all_byteOk (bs : List Bool) :
    (bs.map PyVal.pyBool).all byteOk = true := by
  induction bs with
  | nil => rfl
  | cons b t ih =>
    cases b <;> simp only [List.map_cons, List.all_cons, ih, Bool.and_true] <;> rfl

lemma map_intVal_pyBool (bs : List Bool) :
    (bs.map PyVal.pyBool).map (fun x => (intVal x).toNat) =
      bs.map fun b => if b then 1 else 0 := by
  induction bs with
  | nil => rfl
  | cons b t ih => cases b <;> simp only [List.map_cons, ih] <;> rfl

/-- C10: boolean elements pass the `isinstance(x, int)` check, so the
decoder accepts lists of booleans, mapping `True` to byte 1 and `False`
to byte 0; in particular `[True, False]` decodes to the bytes `01 00`. -/
theorem bool_elements_pass_int_check :
    (∀ bs : List Bool,
      deserialize_binary_data (.pyList (bs.map PyVal.pyBool)) =
        .ok (bs.map fun b => if b then 1 else 0)) ∧
    deserialize_binary_data (.pyList [.pyBool true, .pyBool false]) = .ok [1, 0] := by
  constructor
  · intro bs
    have hall := map_pyBool_all_byteOk bs
    simp only [deserialize_binary_data, hall, if_true]
    rw [map_intVal_pyBool bs]
  · rfl

/-! ## The lenient timestamp codec.

Embedded from `src/core/data/tests/test_serde_iso8601/output.py`:
`parse_rfc3339` tries `strptime` with `"%Y-%m-%dT%H:%M:%SZ"` first and
`"%Y-%m-%dT%H:%M:%S.%fZ"` second; `serialize_datetime_data` is
`strftime("%Y-%m-%dT%H:%M:%SZ")`.  The `strptime` model follows CPython's
`_strptime` regexes for these directives (4-digit `%Y`; 1-2 digit numeric
fields with the documented ranges, the following literal being a non-digit
so maximal-munch agrees with the regex; `%f` being 1 to 6 digits padded to
microseconds; `T`/`Z` literals matched case-insensitively because the
pattern regex is compiled with IGNORECASE) followed by `datetime`
construction, which validates calendar ranges and rejects leap seconds.
`strftime` is modelled with all fields zero-padded (`%Y` to four digits). -/

structure PyDateTime where
  year : Nat
  month : Nat
  day : Nat
  hour : Nat
  minute : Nat
  second : Nat
  microsecond : Nat
deriving DecidableEq

def digitVal (c : Char) : Nat := c.toNat - 48

/-- Split a leading run of ASCII digits off a character list. -/
def readDigits : List Char → List Char × List Char
  | [] => ([], [])
  | c :: cs =>
    if c.isDigit then
      let p := readDigits cs
      (c :: p.1, p.2)
    else ([], c :: cs)

/-- Decimal value of a digit run. -/
def runVal (r : List Char) : Nat := r.foldl (fun a c => 10 * a + digitVal c) 0

def litT (c : Char) : Bool := c = 'T' || c = 't'

def litZ (c : Char) : Bool := c = 'Z' || c = 'z'

/-- One numeric field: a digit run followed by a separator accepted by
`good`; fails when the run is followed by end-of-input or another
character (how the compiled pattern regex fails on a wrong literal). -/
def field (good : Char → Bool) (cs : List Char) : Option (List Char × List Char) :=
  let p := readDigits cs
  match p.2 with
  | c :: rest => if good c then some (p.1, rest) else none
  | [] => none

/-- Shared structure of both patterns: six digit runs separated by the
literals `-`, `-`, `T`, `:`, `:`, returning the runs and the unconsumed
tail (which the whole-second pattern requires to be `Z` and the
fractional pattern requires to be `.<digits>Z`). -/
def parseCore (cs : List Char) :
    Option (List Char × List Char × List Char × List Char × List Char × List Char ×
      List Char) := do
  let f1 ← field (· = '-') cs
  let f2 ← field (· = '-') f1.2
  let f3 ← field litT f2.2
  let f4 ← field (· = ':') f3.2
  let f5 ← field (· = ':') f4.2
  let p6 := readDigits f5.2
  some (f1.1, f2.1, f3.1, f4.1, f5.1, p6.1, p6.2)

def okYear (r : List Char) : Bool := decide (r.length = 4)

def okMonth (r : List Char) : Bool :=
  decide ((r.length = 1 ∧ 1 ≤ runVal r) ∨ (r.length = 2 ∧ 1 ≤ runVal r ∧ runVal r ≤ 12))

def okDay (r : List Char) : Bool :=
  decide ((r.length = 1 ∧ 1 ≤ runVal r) ∨ (r.length = 2 ∧ 1 ≤ runVal r ∧ runVal r ≤ 31))

def okHour (r : List Char) : Bool :=
  decide (r.length = 1 ∨ (r.length = 2 ∧ runVal r ≤ 23))

def okMinute (r : List Char) : Bool :=
  decide (r.length = 1 ∨ (r.length = 2 ∧ runVal r ≤ 59))

def okSecond (r : List Char) : Bool :=
  decide (r.length = 1 ∨ (r.length = 2 ∧ runVal r ≤ 61))

def fieldsOk (r1 r2 r3 r4 r5 r6 : List Char) : Bool :=
  okYear r1 && okMonth r2 && okDay r3 && okHour r4 && okMinute r5 && okSecond r6

def isLeapYear (y : Nat) : Bool := y % 4 = 0 && (y % 100 ≠ 0 || y % 400 = 0)

def daysInMonth (y m : Nat) : Nat :=
  if m = 2 then (if isLeapYear y then 29 else 28)
  else if m = 4 ∨ m = 6 ∨ m = 9 ∨ m = 11 then 30
  else 31

/-- The range checks done by the `datetime` constructor (which is where
Python rejects leap seconds and impossible calendar dates). -/
def validDT (dt : PyDateTime) : Bool :=
  decide (1 ≤ dt.year ∧ dt.year ≤ 9999 ∧ 1 ≤ dt.month ∧ dt.month ≤ 12 ∧
    1 ≤ dt.day ∧ dt.day ≤ daysInMonth dt.year dt.month ∧
    dt.hour ≤ 23 ∧ dt.minute ≤ 59 ∧ dt.second ≤ 59 ∧ dt.microsecond ≤ 999999)

def guardDT (dt : PyDateTime) : Option PyDateTime :=
  if validDT dt then some dt else none

def mkDT (r1 r2 r3 r4 r5 r6 : List Char) (micro : Nat) : PyDateTime :=
  ⟨runVal r1, runVal r2, runVal r3, runVal r4, runVal r5, runVal r6, micro⟩

/-- `datetime.strptime(s, "%Y-%m-%dT%H:%M:%SZ")`, `none` for `ValueError`. -/
def strptimeWhole (cs : List Char) : Option PyDateTime :=
  match parseCore cs with
  | some (r1, r2, r3, r4, r5, r6, [c]) =>
    if litZ c && fieldsOk r1 r2 r3 r4 r5 r6 then
      guardDT (mkDT r1 r2 r3 r4 r5 r6 0)
    else none
  | _ => none

/-- `datetime.strptime(s, "%Y-%m-%dT%H:%M:%S.%fZ")`, `none` for `ValueError`. -/
def strptimeFrac (cs : List Char) : Option PyDateTime :=
  match parseCore cs with
  | some (r1, r2, r3, r4, r5, r6, '.' :: fr) =>
    let pf := readDigits fr
    match pf.2 with
    | [c] =>
      if litZ c && fieldsOk r1 r2 r3 r4 r5 r6 &&
          decide (1 ≤ pf.1.length ∧ pf.1.length ≤ 6) then
        guardDT (mkDT r1 r2 r3 r4 r5 r6 (runVal pf.1 * 10 ^ (6 - pf.1.length)))
      else none
    | _ => none
  | _ => none

/-- Embedded `parse_rfc3339`: first pattern that parses wins; `none` models
the final `raise ValueError`. -/
def parse_rfc3339 (s : String) : Option PyDateTime :=
  match strptimeWhole s.data with
  | some dt => some dt
  | none => strptimeFrac s.data

def digitChar (n : Nat) : Char :=
  match n with
  | 0 => '0' | 1 => '1' | 2 => '2' | 3 => '3' | 4 => '4'
  | 5 => '5' | 6 => '6' | 7 => '7' | 8 => '8' | 9 => '9'
  | _ => '0'

/-- `n` printed zero-padded to `k` decimal digits (most significant first). -/
def padNum : Nat → Nat → List Char
  | 0, _ => []
  | k + 1, n => padNum k (n / 10) ++ [digitChar (n % 10)]

def serChars (dt : PyDateTime) : List Char :=
  padNum 4 dt.year ++ '-' :: padNum 2 dt.month ++ '-' :: padNum 2 dt.day ++
    'T' :: padNum 2 dt.hour ++ ':' :: padNum 2 dt.minute ++ ':' :: padNum 2 dt.second ++
    ['Z']

/-- Embedded `serialize_datetime_data`: always the whole-second pattern,
microseconds dropped. -/
def serialize_datetime_data (dt : PyDateTime) : String := String.mk (serChars dt)

example : parse_rfc3339 "2024-03-05T06:07:08Z" = some ⟨2024, 3, 5, 6, 7, 8, 0⟩ := by rfl
example : parse_rfc3339 "2024-03-05T06:07:08.5Z" = some ⟨2024, 3, 5, 6, 7, 8, 500000⟩ := by
  rfl
example : parse_rfc3339 "2024-02-30T06:07:08Z" = none := by rfl
example : parse_rfc3339 "2024-03-05 06:07:08Z" = none := by rfl
example : serialize_datetime_data ⟨2024, 3, 5, 6, 7, 8, 500000⟩ = "2024-03-05T06:07:08Z" := by
  rfl

lemma digitChar_isDigit (n : Nat) : (digitChar n).isDigit = true := by
  unfold digitChar
  split <;> rfl

lemma digitVal_digitChar (n : Nat) (h : n < 10) : digitVal (digitChar n) = n := by
  interval_cases n <;> rfl

lemma padNum_length (k : Nat) : ∀ n, (padNum k n).length = k := by
  induction k with
  | zero => intro n; rfl
  | succ k ih => intro n; simp [padNum, ih]

lemma padNum_digits (k : Nat) : ∀ n, ∀ c ∈ padNum k n, c.isDigit = true := by
  induction k with
  | zero => intro n c hc; cases hc
  | succ k ih =>
    intro n c hc
    rcases List.mem_append.mp hc with h | h
    · exact ih (n / 10) c h
    · rw [List.mem_singleton.mp h]; exact digitChar_isDigit _

lemma runVal_snoc (xs : List Char) (c : Char) :
    runVal (xs ++ [c]) = 10 * runVal xs + digitVal c := by
  simp [runVal, List.foldl_append]

lemma runVal_padNum (k : Nat) : ∀ n, runVal (padNum k n) = n % 10 ^ k := by
  induction k with
  | zero => intro n; simp [padNum, runVal, Nat.mod_one]
  | succ k ih =>
    intro n
    rw [padNum, runVal_snoc, ih (n / 10), digitVal_digitChar _ (Nat.mod_lt n (by omega)),
      pow_succ]
    rw [show (10 : Nat) ^ k * 10 = 10 * 10 ^ k by ring, Nat.mod_mul]
    ring

lemma runVal_padNum_eq (k n : Nat) (h : n < 10 ^ k) : runVal (padNum k n) = n := by
  rw [runVal_padNum, Nat.mod_eq_of_lt h]

lemma readDigits_append (ds : List Char) (c : Char) (rest : List Char)
    (hds : ∀ x ∈ ds, x.isDigit = true) (hc : c.isDigit = false) :
    readDigits (ds ++ c :: rest) = (ds, c :: rest) := by
  induction ds with
  | nil => simp [readDigits, hc]
  | cons d t ih =>
    have hd := hds d (List.mem_cons_self d t)
    simp [readDigits, hd, ih fun x hx => hds x (List.mem_cons_of_mem d hx)]

lemma field_pad (good : Char → Bool) (k n : Nat) (c : Char) (rest : List Char)
    (hc : c.isDigit = false) (hg : good c = true) :
    field good (padNum k n ++ c :: rest) = some (padNum k n, rest) := by
  simp [field, readDigits_append _ _ _ (padNum_digits k n) hc, hg]

lemma parseCore_serChars (dt : PyDateTime) :
    parseCore (serChars dt) =
      some (padNum 4 dt.year, padNum 2 dt.month, padNum 2 dt.day,
        padNum 2 dt.hour, padNum 2 dt.minute, padNum 2 dt.second, ['Z']) := by
  obtain ⟨y, mo, d, h, mi, s, us⟩ := dt
  have hz : readDigits (padNum 2 s ++ ['Z']) = (padNum 2 s, ['Z']) :=
    readDigits_append _ _ _ (padNum_digits 2 s) (by rfl)
  simp only [serChars, parseCore, List.cons_append, List.append_assoc]
  rw [field_pad _ 4 y '-' _ rfl (by rfl)]
  simp only [Bind.bind, Option.bind]
  rw [field_pad _ 2 mo '-' _ rfl (by rfl)]
  simp only [Bind.bind, Option.bind]
  rw [field_pad _ 2 d 'T' _ rfl (by rfl)]
  simp only [Bind.bind, Option.bind]
  rw [field_pad _ 2 h ':' _ rfl (by rfl)]
  simp only [Bind.bind, Option.bind]
  rw [field_pad _ 2 mi ':' _ rfl (by rfl)]
  simp only [Bind.bind, Option.bind, hz]

lemma daysInMonth_le_31 (y m : Nat) : daysInMonth y m ≤ 31 := by
  unfold daysInMonth
  split
  · split <;> omega
  · split <;> omega

lemma strptimeWhole_serChars (dt : PyDateTime) (hv : validDT dt = true) :
    strptimeWhole (serChars dt) =
      some ⟨dt.year, dt.month, dt.day, dt.hour, dt.minute, dt.second, 0⟩ := by
  obtain ⟨y, mo, d, h, mi, s, us⟩ := dt
  simp only [validDT, decide_eq_true_eq] at hv
  obtain ⟨hv1, hv2, hv3, hv4, hv5, hv6, hv7, hv8, hv9, _⟩ := hv
  have hdle := daysInMonth_le_31 y mo
  have hy := runVal_padNum_eq 4 y (by omega)
  have hmo := runVal_padNum_eq 2 mo (by omega)
  have hd := runVal_padNum_eq 2 d (by omega)
  have hh := runVal_padNum_eq 2 h (by omega)
  have hmi := runVal_padNum_eq 2 mi (by omega)
  have hs := runVal_padNum_eq 2 s (by omega)
  have hokY : okYear (padNum 4 y) = true := by
    simp [okYear, padNum_length]
  have hokM : okMonth (padNum 2 mo) = true := by
    simp [okMonth, padNum_length, hmo]
    omega
  have hokD : okDay (padNum 2 d) = true := by
    simp [okDay, padNum_length, hd]
    omega
  have hokH : okHour (padNum 2 h) = true := by
    simp [okHour, padNum_length, hh]
    omega
  have hokMi : okMinute (padNum 2 mi) = true := by
    simp [okMinute, padNum_length, hmi]
    omega
  have hokS : okSecond (padNum 2 s) = true := by
    simp [okSecond, padNum_length, hs]
    omega
  have hcond : (litZ 'Z' && fieldsOk (padNum 4 y) (padNum 2 mo) (padNum 2 d)
      (padNum 2 h) (padNum 2 mi) (padNum 2 s)) = true := by
    rw [Bool.and_eq_true]
    exact ⟨rfl, by simp [fieldsOk, hokY, hokM, hokD, hokH, hokMi, hokS]⟩
  have hmk : mkDT (padNum 4 y) (padNum 2 mo) (padNum 2 d) (padNum 2 h)
      (padNum 2 mi) (padNum 2 s) 0 = ⟨y, mo, d, h, mi, s, 0⟩ := by
    simp [mkDT, hy, hmo, hd, hh, hmi, hs]
  have hvalid : validDT (⟨y, mo, d, h, mi, s, 0⟩ : PyDateTime) = true := by
    simp only [validDT, decide_eq_true_eq]
    exact ⟨hv1, hv2, hv3, hv4, hv5, hv6, hv7, hv8, hv9, by omega⟩
  simp only [strptimeWhole, parseCore_serChars ⟨y, mo, d, h, mi, s, us⟩, hcond, if_true,
    hmk, guardDT, hvalid]

lemma guardDT_valid {d dt : PyDateTime} (h : guardDT d = some dt) : validDT dt = true := by
  unfold guardDT at h
  split at h
  · cases h
    assumption
  · cases h

lemma strptimeWhole_valid {cs : List Char} {dt : PyDateTime}
    (h : strptimeWhole cs = some dt) : validDT dt = true := by
  unfold strptimeWhole at h
  split at h
  · split at h
    · exact guardDT_valid h
    · cases h
  · cases h

lemma strptimeFrac_valid {cs : List Char} {dt : PyDateTime}
    (h : strptimeFrac cs = some dt) : validDT dt = true := by
  unfold strptimeFrac at h
  split at h
  · dsimp only at h
    split at h
    · split at h
      · exact guardDT_valid h
      · cases h
    · cases h
  · cases h

lemma parse_rfc3339_valid {s : String} {dt : PyDateTime}
    (h : parse_rfc3339 s = some dt) : validDT dt = true := by
  unfold parse_rfc3339 at h
  split at h
  · cases h
    exact strptimeWhole_valid (by assumption)
  · exact strptimeFrac_valid h

/-- C3 (amended): re-decoding the re-encoded value of any accepted wire
string yields the decoded value with its sub-second part zeroed; it equals
the original decoded value exactly when that value carries no sub-second
part (all whole-second inputs, and fractional inputs whose fraction is
zero).  Lenient encode always emits the whole-second pattern, so nonzero
microseconds are dropped, not preserved. -/
theorem iso8601_renormalization (s : String) (dt : PyDateTime)
    (h : parse_rfc3339 s = some dt) :
    parse_rfc3339 (serialize_datetime_data dt) =
      some ⟨dt.year, dt.month, dt.day, dt.hour, dt.minute, dt.second, 0⟩ ∧
    (dt.microsecond = 0 → parse_rfc3339 (serialize_datetime_data dt) = some dt) := by
  have hv := parse_rfc3339_valid h
  have hw := strptimeWhole_serChars dt hv
  have hmain : parse_rfc3339 (serialize_datetime_data dt) =
      some ⟨dt.year, dt.month, dt.day, dt.hour, dt.minute, dt.second, 0⟩ := by
    simp only [parse_rfc3339, serialize_datetime_data, hw]
  refine ⟨hmain, fun h0 => ?_⟩
  rw [hmain]
  obtain ⟨y, mo, d, hh, mi, ss, us⟩ := dt
  simp only at h0
  rw [h0]

/-- Witness for `iso8601_renormalization` at a concrete whole-second input. -/
theorem iso8601_renormalization_witness :
    parse_rfc3339 (serialize_datetime_data ⟨2024, 3, 5, 6, 7, 8, 0⟩) =
      some ⟨2024, 3, 5, 6, 7, 8, 0⟩ :=
  (iso8601_renormalization "2024-03-05T06:07:08Z" ⟨2024, 3, 5, 6, 7, 8, 0⟩ (by rfl)).2 rfl

/-- C3 counterexample: on the accepted fractional input
`2024-03-05T06:07:08.5Z`, `decode (encode (decode x))` differs from
`decode x` — the 500000 microseconds are lost — so
`decode(encode(decode(x))) = decode(x)` is false as stated. -/
theorem iso8601_fractional_not_idempotent :
    ((parse_rfc3339 "2024-03-05T06:07:08.5Z").bind
        fun dt => parse_rfc3339 (serialize_datetime_data dt)) ≠
      parse_rfc3339 "2024-03-05T06:07:08.5Z" := by
  have h1 : parse_rfc3339 "2024-03-05T06:07:08.5Z" =
      some ⟨2024, 3, 5, 6, 7, 8, 500000⟩ := by rfl
  have h2 : parse_rfc3339 (serialize_datetime_data ⟨2024, 3, 5, 6, 7, 8, 500000⟩) =
      some ⟨2024, 3, 5, 6, 7, 8, 0⟩ := by rfl
  rw [h1]
  simp only [Option.bind, h2]
  intro hc
  have := (Option.some_inj.mp hc)
  cases this

/-! ## The emitted declaration lists of the checked-in output modules.

Each Python output module under `src/` is embedded as an ordered list of
declarations.  For every declaration we record its name and the names of
the other types it references: `strong` references appear outside any
`Optional[...]`, `weak` references appear inside one.  A reference from a
variant class to its `<Enum>Types` carrier (via `Literal[...]`) and the
members of a `Union[...]` alias are strong references.  References to
types not declared in the same module (e.g. `Tag` in
`can_generate_slice_of_user_type`) are recorded but constrain nothing. -/

inductive EmittedDecl where
  | pyClass (name : String) (strong weak : List String)
  | stringEnum (name : String) (cases : List (String × String))
  | unionAlias (name : String) (members : List String)
  | typeAlias (name : String) (strong weak : List String)
  | constDecl (name : String)
deriving DecidableEq

def declName : EmittedDecl → String
  | .pyClass n _ _ => n
  | .stringEnum n _ => n
  | .unionAlias n _ => n
  | .typeAlias n _ _ => n
  | .constDecl n => n

def strongRefs : EmittedDecl → List String
  | .pyClass _ s _ => s
  | .stringEnum _ _ => []
  | .unionAlias _ ms => ms
  | .typeAlias _ s _ => s
  | .constDecl _ => []

def weakRefs : EmittedDecl → List String
  | .pyClass _ _ w => w
  | .typeAlias _ _ w => w
  | _ => []

def isUnionDecl : EmittedDecl → Bool
  | .unionAlias _ _ => true
  | _ => false

/-- Every strong reference of every declaration that resolves to a
declaration of the same module must resolve to an earlier one. -/
def orderOKFrom (all : List EmittedDecl) : List String → List EmittedDecl → Bool
  | _, [] => true
  | seen, d :: rest =>
    (strongRefs d).all (fun n => seen.contains n || !(all.any fun e => declName e = n)) &&
      orderOKFrom all (declName d :: seen) rest

def orderOK (u : List EmittedDecl) : Bool := orderOKFrom u [] u

/-- `src/core/data/tests/test_byte_translation/output.py`. -/
def testByteTranslationUnit : List EmittedDecl := [.pyClass "Foo" [] []]

/-- `src/core/data/tests/test_serde_iso8601/output.py`. -/
def testSerdeIso8601Unit : List EmittedDecl := [.pyClass "Foo" [] []]

/-- `src/core/data/tests/test_datetime_translation/output.py`. -/
def testDatetimeTranslationUnit : List EmittedDecl := [.pyClass "Foo" [] []]

/-- `src/core/data/tests/test_custom_serialize_deserialize_functions/output.py`. -/
def testCustomSerdeUnit : List EmittedDecl := [.pyClass "Foo" [] []]

/-- `src/core/data/tests/resolves_qualified_type/output.py`. -/
def resolvesQualifiedTypeUnit : List EmittedDecl := [.pyClass "QualifiedTypes" [] []]

/-- `src/core/data/tests/can_generate_const/output.py`. -/
def canGenerateConstUnit : List EmittedDecl :=
  [.constDecl "MY_INT_VAR", .constDecl "EMPTY", .constDecl "SIMPLE_ASCII",
   .constDecl "MULTILINE", .constDecl "ESCAPED_CHARACTERS", .constDecl "UNICODE",
   .constDecl "RAW_STRING", .constDecl "CONTAINS_BACKTICK",
   .constDecl "CONTAINS_DOLLAR_CURLY", .constDecl "ENDS_WITH_ODD_BACKSLASH",
   .constDecl "NULL_BYTE", .constDecl "COMBINING"]

/-- `src/core/data/tests/serialize_field_as/output.py`. -/
def serializeFieldAsUnit : List EmittedDecl :=
  [.pyClass "EditItemViewModelSaveRequest" ["EditItemSaveValue"]
    ["AutoFillItemActionRequest"]]

/-- `src/core/data/tests/can_generate_slice_of_user_type/output.py`. -/
def canGenerateSliceUnit : List EmittedDecl := [.pyClass "Video" ["Tag"] []]

/-- `src/core/data/tests/test_optional_type_alias/output.py`. -/
def testOptionalTypeAliasUnit : List EmittedDecl :=
  [.typeAlias "OptionalU16" [] [], .typeAlias "OptionalU32" [] [],
   .pyClass "FooBar" ["OptionalU32", "OptionalU16"] []]

/-- `src/core/data/tests/orders_types/output.py`: declaration order
`A, B, C, E, D`; `E.depends_on : D` is a strong (non-`Optional`) forward
reference, `D.also_depends_on : Optional[E]` is weak. -/
def ordersTypesUnit : List EmittedDecl :=
  [.pyClass "A" [] [],
   .pyClass "B" ["A"] [],
   .pyClass "C" ["B"] [],
   .pyClass "E" ["D"] [],
   .pyClass "D" ["C"] ["E"]]

/-- `src/core/data/tests/can_handle_serde_rename/output.py` (typeshare
1.0.0 header): `Person.non_standard_data_type : OtherType` is a strong
reference to a type declared after `Person`. -/
def canHandleSerdeRenameUnit : List EmittedDecl :=
  [.pyClass "Person" ["OtherType"] ["OtherType"],
   .pyClass "OtherType" [] []]

/-- `src/core/data/tests/can_handle_serde_rename_on_top_level/output.py`
(typeshare 1.0.0 header). -/
def canHandleSerdeRenameTopLevelUnit : List EmittedDecl :=
  [.pyClass "PersonTwo" ["OtherType"] ["OtherType"],
   .pyClass "OtherType" [] []]

/-- `src/core/data/tests/can_handle_anonymous_struct/output.py`. -/
def canHandleAnonymousStructUnit : List EmittedDecl :=
  [.pyClass "AutofilledByUsInner" [] [],
   .pyClass "AutofilledBySomethingElseInner" [] [],
   .stringEnum "AutofilledByTypes" [("US", "Us"), ("SOMETHING_ELSE", "SomethingElse")],
   .pyClass "AutofilledByUs" ["AutofilledByTypes", "AutofilledByUsInner"] [],
   .pyClass "AutofilledBySomethingElse"
     ["AutofilledByTypes", "AutofilledBySomethingElseInner"] [],
   .unionAlias "AutofilledBy" ["AutofilledByUs", "AutofilledBySomethingElse"],
   .pyClass "EnumWithManyVariantsAnonVariantInner" [] [],
   .pyClass "EnumWithManyVariantsAnotherAnonVariantInner" [] [],
   .stringEnum "EnumWithManyVariantsTypes"
     [("UNIT_VARIANT", "UnitVariant"), ("TUPLE_VARIANT_STRING", "TupleVariantString"),
      ("ANON_VARIANT", "AnonVariant"), ("TUPLE_VARIANT_INT", "TupleVariantInt"),
      ("ANOTHER_UNIT_VARIANT", "AnotherUnitVariant"),
      ("ANOTHER_ANON_VARIANT", "AnotherAnonVariant")],
   .pyClass "EnumWithManyVariantsUnitVariant" ["EnumWithManyVariantsTypes"] [],
   .pyClass "EnumWithManyVariantsTupleVariantString" ["EnumWithManyVariantsTypes"] [],
   .pyClass "EnumWithManyVariantsAnonVariant"
     ["EnumWithManyVariantsTypes", "EnumWithManyVariantsAnonVariantInner"] [],
   .pyClass "EnumWithManyVariantsTupleVariantInt" ["EnumWithManyVariantsTypes"] [],
   .pyClass "EnumWithManyVariantsAnotherUnitVariant" ["EnumWithManyVariantsTypes"] [],
   .pyClass "EnumWithManyVariantsAnotherAnonVariant"
     ["EnumWithManyVariantsTypes", "EnumWithManyVariantsAnotherAnonVariantInner"] [],
   .unionAlias "EnumWithManyVariants"
     ["EnumWithManyVariantsUnitVariant", "EnumWithManyVariantsTupleVariantString",
      "EnumWithManyVariantsAnonVariant", "EnumWithManyVariantsTupleVariantInt",
      "EnumWithManyVariantsAnotherUnitVariant", "EnumWithManyVariantsAnotherAnonVariant"]]

/-- `src/core/data/tests/can_apply_prefix_correctly/output.py`. -/
def canApplyPrefixCorrectlyUnit : List EmittedDecl :=
  [.pyClass "ItemDetailsFieldValue" [] [],
   .stringEnum "AdvancedColorsTypes"
     [("STRING", "String"), ("NUMBER", "Number"), ("NUMBER_ARRAY", "NumberArray"),
      ("REALLY_COOL_TYPE", "ReallyCoolType"), ("ARRAY_REALLY_COOL_TYPE", "ArrayReallyCoolType"),
      ("DICTIONARY_REALLY_COOL_TYPE", "DictionaryReallyCoolType")],
   .pyClass "AdvancedColorsString" ["AdvancedColorsTypes"] [],
   .pyClass "AdvancedColorsNumber" ["AdvancedColorsTypes"] [],
   .pyClass "AdvancedColorsNumberArray" ["AdvancedColorsTypes"] [],
   .pyClass "AdvancedColorsReallyCoolType"
     ["AdvancedColorsTypes", "ItemDetailsFieldValue"] [],
   .pyClass "AdvancedColorsArrayReallyCoolType"
     ["AdvancedColorsTypes", "ItemDetailsFieldValue"] [],
   .pyClass "AdvancedColorsDictionaryReallyCoolType"
     ["AdvancedColorsTypes", "ItemDetailsFieldValue"] [],
   .unionAlias "AdvancedColors"
     ["AdvancedColorsString", "AdvancedColorsNumber", "AdvancedColorsNumberArray",
      "AdvancedColorsReallyCoolType", "AdvancedColorsArrayReallyCoolType",
      "AdvancedColorsDictionaryReallyCoolType"]]

/-- `src/core/data/tests/anonymous_struct_with_rename/output.py`. -/
def anonymousStructWithRenameUnit : List EmittedDecl :=
  [.pyClass "AnonymousStructWithRenameListInner" [] [],
   .pyClass "AnonymousStructWithRenameLongFieldNamesInner" [] [],
   .pyClass "AnonymousStructWithRenameKebabCaseInner" [] [],
   .stringEnum "AnonymousStructWithRenameTypes"
     [("LIST", "list"), ("LONG_FIELD_NAMES", "longFieldNames"), ("KEBAB_CASE", "kebabCase")],
   .pyClass "AnonymousStructWithRenameList"
     ["AnonymousStructWithRenameTypes", "AnonymousStructWithRenameListInner"] [],
   .pyClass "AnonymousStructWithRenameLongFieldNames"
     ["AnonymousStructWithRenameTypes", "AnonymousStructWithRenameLongFieldNamesInner"] [],
   .pyClass "AnonymousStructWithRenameKebabCase"
     ["AnonymousStructWithRenameTypes", "AnonymousStructWithRenameKebabCaseInner"] [],
   .unionAlias "AnonymousStructWithRename"
     ["AnonymousStructWithRenameList", "AnonymousStructWithRenameLongFieldNames",
      "AnonymousStructWithRenameKebabCase"]]

/-- `src/core/data/tests/excluded_by_target_os/output.py`: note
`AlwaysAcceptEnum` (all-unit, untagged) is a bare string enum, and
`SomeEnum` (all variants filtered out) is an empty string enum. -/
def excludedByTargetOsUnit : List EmittedDecl :=
  [.pyClass "AlwaysAccept" [] [],
   .pyClass "DefinedTwice" [] [],
   .pyClass "Excluded" [] [],
   .pyClass "ManyStruct" [] [],
   .pyClass "MultipleTargets" [] [],
   .pyClass "NestedNotTarget1" [] [],
   .pyClass "OtherExcluded" [] [],
   .stringEnum "AlwaysAcceptEnum" [("VARIANT1", "Variant1"), ("VARIANT2", "Variant2")],
   .stringEnum "SomeEnum" [],
   .pyClass "TestEnumVariant7Inner" [] [],
   .pyClass "TestEnumVariant9Inner" [] [],
   .stringEnum "TestEnumTypes"
     [("VARIANT_1", "Variant1"), ("VARIANT_5", "Variant5"), ("VARIANT_7", "Variant7"),
      ("VARIANT_8", "Variant8"), ("VARIANT_9", "Variant9")],
   .pyClass "TestEnumVariant1" ["TestEnumTypes"] [],
   .pyClass "TestEnumVariant5" ["TestEnumTypes"] [],
   .pyClass "TestEnumVariant7" ["TestEnumTypes", "TestEnumVariant7Inner"] [],
   .pyClass "TestEnumVariant8" ["TestEnumTypes"] [],
   .pyClass "TestEnumVariant9" ["TestEnumTypes", "TestEnumVariant9Inner"] [],
   .unionAlias "TestEnum"
     ["TestEnumVariant1", "TestEnumVariant5", "TestEnumVariant7", "TestEnumVariant8",
      "TestEnumVariant9"]]

/-- `src/old/core/data/tests/smart_pointers/output.py`. -/
def smartPointersUnit : List EmittedDecl :=
  [.pyClass "ArcyColors" [] [],
   .pyClass "CellyColors" [] [],
   .pyClass "CowyColors" [] [],
   .pyClass "LockyColors" [] [],
   .pyClass "MutexyColors" [] [],
   .pyClass "RcyColors" [] [],
   .stringEnum "BoxyColorsTypes" [("RED", "Red"), ("BLUE", "Blue"), ("GREEN", "Green")],
   .pyClass "BoxyColorsRed" ["BoxyColorsTypes"] [],
   .pyClass "BoxyColorsBlue" ["BoxyColorsTypes"] [],
   .pyClass "BoxyColorsGreen" ["BoxyColorsTypes"] [],
   .unionAlias "BoxyColors" ["BoxyColorsRed", "BoxyColorsBlue", "BoxyColorsGreen"]]

/-- `src/app/cli/snapshot-tests/can_handle_unit_type/output.py`. -/
def canHandleUnitTypeUnit : List EmittedDecl :=
  [.pyClass "StructHasVoidType" [] [],
   .stringEnum "EnumHasVoidTypeTypes" [("HAS_A_UNIT", "hasAUnit")],
   .pyClass "EnumHasVoidTypeHasAUnit" ["EnumHasVoidTypeTypes"] [],
   .unionAlias "EnumHasVoidType" ["EnumHasVoidTypeHasAUnit"]]

/-- `src/core/data/tests/serialize_anonymous_field_as/output.py`. -/
def serializeAnonymousFieldAsUnit : List EmittedDecl :=
  [.stringEnum "SomeEnumTypes" [("CONTEXT", "Context"), ("OTHER", "Other")],
   .pyClass "SomeEnumContext" ["SomeEnumTypes"] [],
   .pyClass "SomeEnumOther" ["SomeEnumTypes"] [],
   .unionAlias "SomeEnum" ["SomeEnumContext", "SomeEnumOther"]]

/-- `src/core/data/tests/test_algebraic_enum_case_name_support/output.py`. -/
def testAlgebraicEnumCaseNameUnit : List EmittedDecl :=
  [.pyClass "ItemDetailsFieldValue" [] [],
   .stringEnum "AdvancedColorsTypes"
     [("STRING", "string"), ("NUMBER", "number"), ("NUMBER_ARRAY", "number-array"),
      ("REALLY_COOL_TYPE", "reallyCoolType")],
   .pyClass "AdvancedColorsString" ["AdvancedColorsTypes"] [],
   .pyClass "AdvancedColorsNumber" ["AdvancedColorsTypes"] [],
   .pyClass "AdvancedColorsNumberArray" ["AdvancedColorsTypes"] [],
   .pyClass "AdvancedColorsReallyCoolType"
     ["AdvancedColorsTypes", "ItemDetailsFieldValue"] [],
   .unionAlias "AdvancedColors"
     ["AdvancedColorsString", "AdvancedColorsNumber", "AdvancedColorsNumberArray",
      "AdvancedColorsReallyCoolType"]]

/-- All embedded output modules. -/
def allUnits : List (List EmittedDecl) :=
  [testByteTranslationUnit, testSerdeIso8601Unit, testDatetimeTranslationUnit,
   testCustomSerdeUnit, resolvesQualifiedTypeUnit, canGenerateConstUnit,
   serializeFieldAsUnit, canGenerateSliceUnit, testOptionalTypeAliasUnit,
   ordersTypesUnit, canHandleSerdeRenameUnit, canHandleSerdeRenameTopLevelUnit,
   canHandleAnonymousStructUnit, canApplyPrefixCorrectlyUnit,
   anonymousStructWithRenameUnit, excludedByTargetOsUnit, smartPointersUnit,
   canHandleUnitTypeUnit, serializeAnonymousFieldAsUnit, testAlgebraicEnumCaseNameUnit]

/-- The embedded modules other than the three where a strong reference is
emitted forward: the two legacy typeshare-1.0.0 rename modules and
`orders_types` (whose `E -> D` strong edge lies on a cycle with the weak
`D -> E` edge). -/
def forwardFreeUnits : List (List EmittedDecl) :=
  [testByteTranslationUnit, testSerdeIso8601Unit, testDatetimeTranslationUnit,
   testCustomSerdeUnit, resolvesQualifiedTypeUnit, canGenerateConstUnit,
   serializeFieldAsUnit, canGenerateSliceUnit, testOptionalTypeAliasUnit,
   canHandleAnonymousStructUnit, canApplyPrefixCorrectlyUnit,
   anonymousStructWithRenameUnit, excludedByTargetOsUnit, smartPointersUnit,
   canHandleUnitTypeUnit, serializeAnonymousFieldAsUnit, testAlgebraicEnumCaseNameUnit]

/-- C4 counterexample: the emitted declaration order does not always place
a strongly referenced type before its dependent: `Person` strongly
references `OtherType` yet precedes it in `can_handle_serde_rename`, and
`E` strongly references `D` yet precedes it in `orders_types`; so the
universal ordering claim fails over the checked-in compilation units. -/
theorem emission_order_violations :
    orderOK canHandleSerdeRenameUnit = false ∧
    orderOK canHandleSerdeRenameTopLevelUnit = false ∧
    orderOK ordersTypesUnit = false ∧
    allUnits.all orderOK = false := by
  refine ⟨by decide, by decide, by decide, by decide⟩

/-- C4 (amended): in every embedded compilation unit except the two legacy
typeshare-1.0.0 rename modules and `orders_types` (where the strong edge
`E -> D` lies on a reference cycle with the weak edge `D -> E`), every
non-optional (strong) reference from a declaration A to a declaration B of
the same unit places B before A. -/
theorem emission_order_strong_refs : forwardFreeUnits.all orderOK = true := by decide

/-- C5: the `orders_types` module was emitted (the orderer did not fail)
with the definitions in exactly the order `A, B, C, E, D`; the only
reference of `D` besides its strong dependency on `C` is the weak
(`Optional`) reference to `E`, and `E` strongly references `D`. -/
theorem orders_types_emission :
    ordersTypesUnit.map declName = ["A", "B", "C", "E", "D"] ∧
    (ordersTypesUnit.any fun d => d == .pyClass "D" ["C"] ["E"]) = true ∧
    (ordersTypesUnit.any fun d => d == .pyClass "E" ["D"] []) = true ∧
    (ordersTypesUnit.any fun d => d == .pyClass "B" ["A"] []) = true ∧
    (ordersTypesUnit.any fun d => d == .pyClass "C" ["B"] []) = true := by
  refine ⟨by decide, by decide, by decide, by decide, by decide⟩

/-- C6 counterexample: `AlwaysAcceptEnum` has only unit variants, yet the
emitted module represents it as a bare string enum — there is no
`AlwaysAcceptEnumTypes` discriminant carrier, no per-variant declaration,
and no union named `AlwaysAcceptEnum` — refuting "never collapsed to a
bare string-enum form". -/
theorem all_unit_enum_collapsed_to_string_enum :
    (excludedByTargetOsUnit.any fun d =>
      d == .stringEnum "AlwaysAcceptEnum" [("VARIANT1", "Variant1"), ("VARIANT2", "Variant2")]) = true ∧
    (excludedByTargetOsUnit.all fun d => !(declName d == "AlwaysAcceptEnumTypes")) = true ∧
    (excludedByTargetOsUnit.all fun d => !(declName d == "AlwaysAcceptEnumVariant1")) = true ∧
    (excludedByTargetOsUnit.all fun d =>
      !(isUnionDecl d && (declName d == "AlwaysAcceptEnum"))) = true := by
  refine ⟨by decide, by decide, by decide, by decide⟩

/-- C7 counterexample: after target filtering removed every variant of
`SomeEnum`, the emitted module still contains a declaration for it (an
empty string enum), refuting "dropped entirely from the emitted output". -/
theorem empty_enum_declaration_present :
    (excludedByTargetOsUnit.any fun d => d == .stringEnum "SomeEnum" []) = true := by
  decide

/-- C7 (amended): an `Enum` whose variants were all filtered out is still
emitted, as a single empty declaration (`class SomeEnum(str, Enum): pass`),
with no variant declarations, no discriminant carrier and no union for it. -/
theorem empty_enum_emitted_as_empty_decl :
    (excludedByTargetOsUnit.any fun d => d == .stringEnum "SomeEnum" []) = true ∧
    ((excludedByTargetOsUnit.filter fun d => declName d == "SomeEnum").length == 1) = true ∧
    (excludedByTargetOsUnit.all fun d => !(declName d == "SomeEnumTypes")) = true ∧
    (excludedByTargetOsUnit.all fun d =>
      !(isUnionDecl d && (declName d == "SomeEnum"))) = true := by
  refine ⟨by decide, by decide, by decide, by decide⟩

/-! ## The Enum Tagging Engine.

The engine's own source is not part of this tree (only its emitted output
modules are), so it is modelled from the spec and cross-checked against
the embedded outputs. -/

inductive PyTypeRef where
  | prim (name : String)
  | named (name : String)
  | option (t : PyTypeRef)
  | listOf (t : PyTypeRef)
  | mapOf (k v : PyTypeRef)
deriving DecidableEq

structure TagField where
  name : String
  type : PyTypeRef
deriving DecidableEq

inductive VariantShape where
  | unit
  | tuple (payload : PyTypeRef)
  | anonymousStruct (fields : List TagField)
deriving DecidableEq

structure EnumVariantIR where
  name : String
  discriminant : String
  shape : VariantShape
deriving DecidableEq

structure EnumIR where
  name : String
  variants : List EnumVariantIR
deriving DecidableEq

/-- The two configurable wire-key constants shared by all variants of one
enum (configuration surface `discriminantKey` / `payloadKey`). -/
structure TagConfig where
  discriminantKey : String
  payloadKey : String
deriving DecidableEq

def defaultTagConfig : TagConfig := ⟨"type", "content"⟩

inductive LoweredDecl where
  | container (name : String) (fields : List TagField)
  | carrier (name : String) (discriminants : List String)
  | variantDecl (name : String) (discKey : String) (discValue : String)
      (payload : Option (String × PyTypeRef))
  | unionDecl (name : String) (members : List String)
deriving DecidableEq

def variantDeclName (enumName variantName : String) : String := enumName ++ variantName

/-- The deterministic synthesized-container name `<EnumName><VariantName>Inner`. -/
def innerName (enumName variantName : String) : String :=
  enumName ++ variantName ++ "Inner"

/-- Modelled from the spec: one declaration per variant — `Unit` variants
carry only the discriminant field, `Tuple` variants the discriminant field
plus a single payload field, `AnonymousStruct` variants the discriminant
field plus a payload field whose type is the synthesized container; the
two wire keys come from the shared configuration. -/
def lowerVariant (cfg : TagConfig) (enumName : String) (v : EnumVariantIR) : LoweredDecl :=
  match v.shape with
  | .unit =>
    .variantDecl (variantDeclName enumName v.name) cfg.discriminantKey v.discriminant none
  | .tuple t =>
    .variantDecl (variantDeclName enumName v.name) cfg.discriminantKey v.discriminant
      (some (cfg.payloadKey, t))
  | .anonymousStruct _ =>
    .variantDecl (variantDeclName enumName v.name) cfg.discriminantKey v.discriminant
      (some (cfg.payloadKey, .named (innerName enumName v.name)))

/-- One pass over the variants collecting (synthesized containers,
per-variant declarations, union member names). -/
def lowerVariants (cfg : TagConfig) (enumName : String) :
    List EnumVariantIR → List LoweredDecl × List LoweredDecl × List String
  | [] => ([], [], [])
  | v :: vs =>
    let r := lowerVariants cfg enumName vs
    ((match v.shape with
      | .anonymousStruct fs => [.container (innerName enumName v.name) fs]
      | _ => []) ++ r.1,
     lowerVariant cfg enumName v :: r.2.1,
     variantDeclName enumName v.name :: r.2.2)

/-- Modelled from the spec: lower an `Enum` into the synthesized containers
(in variant order), the discriminant carrier (`<EnumName>Types`, one
constant per variant valued to its discriminant), one declaration per
variant, and the closed union of the per-variant declarations in
declaration order. -/
def lowerEnum (cfg : TagConfig) (e : EnumIR) : List LoweredDecl :=
  let r := lowerVariants cfg e.name e.variants
  r.1 ++ .carrier (e.name ++ "Types") (e.variants.map EnumVariantIR.discriminant) ::
    r.2.1 ++ [.unionDecl e.name r.2.2]

lemma lowerVariants_containers (cfg : TagConfig) (en : String) (vs : List EnumVariantIR) :
    (lowerVariants cfg en vs).1 =
      vs.filterMap fun v =>
        match v.shape with
        | .anonymousStruct fs => some (.container (innerName en v.name) fs)
        | _ => none := by
  induction vs with
  | nil => rfl
  | cons v t ih =>
    simp only [lowerVariants, ih, List.filterMap_cons]
    cases v.shape <;> simp

lemma lowerVariants_decls (cfg : TagConfig) (en : String) (vs : List EnumVariantIR) :
    (lowerVariants cfg en vs).2.1 = vs.map (lowerVariant cfg en) := by
  induction vs with
  | nil => rfl
  | cons v t ih => simp [lowerVariants, ih]

lemma lowerVariants_members (cfg : TagConfig) (en : String) (vs : List EnumVariantIR) :
    (lowerVariants cfg en vs).2.2 = vs.map fun v => variantDeclName en v.name := by
  induction vs with
  | nil => rfl
  | cons v t ih => simp [lowerVariants, ih]

lemma container_mem_lowerEnum (cfg : TagConfig) (e : EnumIR) (v : EnumVariantIR)
    (hv : v ∈ e.variants) (fs : List TagField) (hs : v.shape = .anonymousStruct fs) :
    LoweredDecl.container (innerName e.name v.name) fs ∈ lowerEnum cfg e := by
  apply List.mem_append_left
  apply List.mem_append_left
  rw [lowerVariants_containers]
  refine List.mem_filterMap.mpr ⟨v, hv, ?_⟩
  show (match v.shape with
    | .anonymousStruct fs => some (LoweredDecl.container (innerName e.name v.name) fs)
    | _ => none) = some (LoweredDecl.container (innerName e.name v.name) fs)
  rw [hs]

/-- C1 (spec-modelled): the lowering of every enum consists of the
synthesized containers of the anonymous-struct variants (in declared
order), the discriminant carrier, one declaration per variant in
declaration order, and the union of the per-variant declarations; each
`Unit` variant declaration carries only the discriminant field, each
`Tuple` one adds a single payload field, each `AnonymousStruct` one adds a
payload field typed `<EnumName><VariantName>Inner` whose container holds
the variant's fields in declared order; the discriminant and payload wire
keys are the two shared configurable constants. -/
theorem enum_tagging_lowering (cfg : TagConfig) (e : EnumIR) :
    lowerEnum cfg e =
      (e.variants.filterMap fun v =>
        match v.shape with
        | .anonymousStruct fs => some (.container (innerName e.name v.name) fs)
        | _ => none) ++
        .carrier (e.name ++ "Types") (e.variants.map EnumVariantIR.discriminant) ::
        e.variants.map (lowerVariant cfg e.name) ++
        [.unionDecl e.name (e.variants.map fun v => variantDeclName e.name v.name)] ∧
    (∀ v ∈ e.variants,
      (v.shape = .unit →
        lowerVariant cfg e.name v =
          .variantDecl (variantDeclName e.name v.name) cfg.discriminantKey v.discriminant
            none) ∧
      (∀ t, v.shape = .tuple t →
        lowerVariant cfg e.name v =
          .variantDecl (variantDeclName e.name v.name) cfg.discriminantKey v.discriminant
            (some (cfg.payloadKey, t))) ∧
      (∀ fs, v.shape = .anonymousStruct fs →
        lowerVariant cfg e.name v =
          .variantDecl (variantDeclName e.name v.name) cfg.discriminantKey v.discriminant
            (some (cfg.payloadKey, .named (innerName e.name v.name))) ∧
        LoweredDecl.container (innerName e.name v.name) fs ∈ lowerEnum cfg e)) := by
  constructor
  · simp only [lowerEnum, lowerVariants_containers, lowerVariants_decls,
      lowerVariants_members]
  · intro v hv
    refine ⟨fun hu => ?_, fun t ht => ?_,
      fun fs hfs => ⟨?_, container_mem_lowerEnum cfg e v hv fs hfs⟩⟩
    · simp [lowerVariant, hu]
    · simp [lowerVariant, ht]
    · simp [lowerVariant, hfs]

/-- The IR of `EnumWithManyVariants`, as evidenced by
`src/core/data/tests/can_handle_anonymous_struct/output.py`. -/
def enumWithManyVariantsIR : EnumIR :=
  ⟨"EnumWithManyVariants",
   [⟨"UnitVariant", "UnitVariant", .unit⟩,
    ⟨"TupleVariantString", "TupleVariantString", .tuple (.prim "str")⟩,
    ⟨"AnonVariant", "AnonVariant", .anonymousStruct [⟨"uuid", .prim "str"⟩]⟩,
    ⟨"TupleVariantInt", "TupleVariantInt", .tuple (.prim "int")⟩,
    ⟨"AnotherUnitVariant", "AnotherUnitVariant", .unit⟩,
    ⟨"AnotherAnonVariant", "AnotherAnonVariant",
      .anonymousStruct [⟨"uuid", .prim "str"⟩, ⟨"thing", .prim "int"⟩]⟩]⟩

/-- Witness for `enum_tagging_lowering` at the `AnonVariant` variant of
`EnumWithManyVariants` under the default `type`/`content` keys. -/
theorem enum_tagging_lowering_witness :
    lowerVariant defaultTagConfig "EnumWithManyVariants"
        ⟨"AnonVariant", "AnonVariant", .anonymousStruct [⟨"uuid", .prim "str"⟩]⟩ =
      .variantDecl "EnumWithManyVariantsAnonVariant" "type" "AnonVariant"
        (some ("content", .named "EnumWithManyVariantsAnonVariantInner")) ∧
    LoweredDecl.container "EnumWithManyVariantsAnonVariantInner" [⟨"uuid", .prim "str"⟩] ∈
      lowerEnum defaultTagConfig enumWithManyVariantsIR := by
  have h := (enum_tagging_lowering defaultTagConfig enumWithManyVariantsIR).2
    ⟨"AnonVariant", "AnonVariant", .anonymousStruct [⟨"uuid", .prim "str"⟩]⟩ (by decide)
  exact h.2.2 [⟨"uuid", .prim "str"⟩] rfl

/-- C6 (amended): only enums lowered by the tagging engine keep the full
tagged shape when every variant is `Unit`: the lowering is still the
discriminant carrier, one per-variant declaration carrying only the
discriminant field, and the union — while an untagged all-unit enum is
emitted collapsed as a bare string enum (see the counterexample for
`AlwaysAcceptEnum`). -/
theorem all_unit_tagged_enum_lowering (cfg : TagConfig) (e : EnumIR)
    (h : ∀ v ∈ e.variants, v.shape = .unit) :
    lowerEnum cfg e =
      .carrier (e.name ++ "Types") (e.variants.map EnumVariantIR.discriminant) ::
        e.variants.map (lowerVariant cfg e.name) ++
        [.unionDecl e.name (e.variants.map fun v => variantDeclName e.name v.name)] ∧
    ∀ v ∈ e.variants,
      lowerVariant cfg e.name v =
        .variantDecl (variantDeclName e.name v.name) cfg.discriminantKey v.discriminant
          none := by
  have hnil : (e.variants.filterMap fun v =>
      match v.shape with
      | VariantShape.anonymousStruct fs =>
        some (LoweredDecl.container (innerName e.name v.name) fs)
      | _ => none) = [] := by
    rw [List.filterMap_eq_nil_iff]
    intro a ha
    show (match a.shape with
      | VariantShape.anonymousStruct fs =>
        some (LoweredDecl.container (innerName e.name a.name) fs)
      | _ => none) = none
    rw [h a ha]
  constructor
  · simp only [lowerEnum, lowerVariants_containers, lowerVariants_decls,
      lowerVariants_members, hnil, List.nil_append]
  · intro v hv
    simp [lowerVariant, h v hv]

/-- The IR of the untagged all-unit enum `AlwaysAcceptEnum` from
`src/core/data/tests/excluded_by_target_os/output.py`, used to exhibit
what the tagging engine would emit for it. -/
def alwaysAcceptEnumIR : EnumIR :=
  ⟨"AlwaysAcceptEnum",
   [⟨"Variant1", "Variant1", .unit⟩, ⟨"Variant2", "Variant2", .unit⟩]⟩

/-- Witness for `all_unit_tagged_enum_lowering` at `AlwaysAcceptEnum`. -/
theorem all_unit_tagged_enum_lowering_witness :
    lowerEnum defaultTagConfig alwaysAcceptEnumIR =
      [.carrier "AlwaysAcceptEnumTypes" ["Variant1", "Variant2"],
       .variantDecl "AlwaysAcceptEnumVariant1" "type" "Variant1" none,
       .variantDecl "AlwaysAcceptEnumVariant2" "type" "Variant2" none,
       .unionDecl "AlwaysAcceptEnum" ["AlwaysAcceptEnumVariant1", "AlwaysAcceptEnumVariant2"]] := by
  have h := all_unit_tagged_enum_lowering defaultTagConfig alwaysAcceptEnumIR (by decide)
  rw [h.1]
  rfl

/-! ## The Case/Naming Resolver.

The conversion functions' source is not part of this tree; they are
modelled from the spec and validated against wire aliases appearing in the
embedded output modules (`dependsOn`, `thisIsBits`, `another-list`, ...). -/

/-- Split a character list at every occurrence of `sep` (word-boundary
detection on the declared identifier's own underscore convention). -/
def splitOnChar (sep : Char) : List Char → List (List Char)
  | [] => [[]]
  | x :: xs =>
    match splitOnChar sep xs with
    | [] => if x = sep then [[], []] else [[x]]
    | w :: ws => if x = sep then [] :: w :: ws else (x :: w) :: ws

def capitalizeWord (w : List Char) : List Char :=
  match w with
  | [] => []
  | c :: cs => c.toUpper :: cs

def lowerWord (w : List Char) : List Char := w.map Char.toLower

/-- Modelled from the spec: camelCase uppercases the first letter of every
word after the first and removes the separators. -/
def toCamelCase (s : String) : String :=
  match splitOnChar '_' s.data with
  | [] => ""
  | w :: ws => String.mk (w ++ (ws.map capitalizeWord).flatten)

/-- Modelled from the spec: kebab-case lowercases the words and joins them
with a dash. -/
def toKebabCase (s : String) : String :=
  String.mk (String.intercalate "-"
    ((splitOnChar '_' s.data).map fun w => String.mk (lowerWord w))).data

/-- Modelled from the spec: PascalCase uppercases every word's first
letter including the first. -/
def toPascalCase (s : String) : String :=
  String.mk ((splitOnChar '_' s.data).map capitalizeWord).flatten

inductive CaseConvention where
  | camel
  | kebab
  | pascal
  | passthrough

def applyConvention : CaseConvention → String → String
  | .camel, s => toCamelCase s
  | .kebab, s => toKebabCase s
  | .pascal, s => toPascalCase s
  | .passthrough, s => s

/-- Modelled from the spec: explicit per-field rename wins over the
container-level convention, which wins over the identifier unchanged. -/
def resolveWireName (explicitRename : Option String) (conv : CaseConvention)
    (ident : String) : String :=
  match explicitRename with
  | some r => r
  | none => applyConvention conv ident

/-- C8 (spec-modelled): kebab-case resolves `another_list` to
`another-list`, camelCase resolves it to `anotherList`, and an explicit
per-field rename always wins over the container convention; the same
functions reproduce the wire aliases observed in the embedded output
modules (`dependsOn`, `alsoDependsOn`, `thisIsBits`, `field1`, `time2`,
`something-else`). -/
theorem case_conversion_resolution (r ident : String) (conv : CaseConvention) :
    toKebabCase "another_list" = "another-list" ∧
    toCamelCase "another_list" = "anotherList" ∧
    resolveWireName (some r) conv ident = r ∧
    resolveWireName none .kebab "another_list" = "another-list" ∧
    resolveWireName none .camel "another_list" = "anotherList" ∧
    toCamelCase "depends_on" = "dependsOn" ∧
    toCamelCase "also_depends_on" = "alsoDependsOn" ∧
    toCamelCase "this_is_bits" = "thisIsBits" ∧
    toCamelCase "field_1" = "field1" ∧
    toCamelCase "time_2" = "time2" ∧
    toKebabCase "something_else" = "something-else" :=
  ⟨rfl, rfl, rfl, rfl, rfl, rfl, rfl, rfl, rfl, rfl, rfl⟩

/-! ## The Literal Renderer.

Its source is not part of this tree; it is modelled from the spec, with
the fallback shape for a trailing odd backslash run taken from the
rendered constant `ENDS_WITH_ODD_BACKSLASH` in
`src/core/data/tests/can_generate_const/output.py`
(`r"""...\\""" + '\\'`). -/

def leadCount (c : Char) : List Char → Nat
  | [] => 0
  | x :: xs => if x = c then leadCount c xs + 1 else 0

/-- Length of the trailing backslash run of a value. -/
def trailingBackslashes (v : List Char) : Nat := leadCount '\\' v.reverse

def startsTQ : List Char → Bool
  | a :: b :: c :: _ => a = '"' && b = '"' && c = '"'
  | _ => false

/-- Whether a triple-quote delimiter occurs inside the value (which would
make a verbatim triple-quoted rendering invalid). -/
def containsTQ : List Char → Bool
  | [] => false
  | x :: xs => startsTQ (x :: xs) || containsTQ xs

/-- A rendered Python string-literal expression: a raw triple-quoted
literal, an escaped triple-quoted literal, an escaped single-quoted
literal, or a concatenation. -/
inductive PyLit where
  | rawTriple (content : List Char)
  | escTriple (src : List Char)
  | escSingle (src : List Char)
  | concatLit (a b : PyLit)
deriving DecidableEq

def escChar (c : Char) : List Char :=
  if c = '\\' then ['\\', '\\']
  else if c = '\'' then ['\\', '\'']
  else if c = '"' then ['\\', '"']
  else [c]

def escapeChars (v : List Char) : List Char := (v.map escChar).flatten

/-- Decode the source text of an escaped literal. -/
def unescape : List Char → Option (List Char)
  | [] => some []
  | ['\\'] => none
  | '\\' :: c :: rest =>
    if c = '\\' ∨ c = '\'' ∨ c = '"' then (unescape rest).map (c :: ·)
    else none
  | c :: rest => (unescape rest).map (c :: ·)

/-- What the rendered literal text decodes back to: a raw literal is only
well-formed when no triple quote occurs inside it and it does not end in
an odd backslash run (which would escape the closing delimiter). -/
def decodeLit : PyLit → Option (List Char)
  | .rawTriple content =>
    if containsTQ content = false ∧ trailingBackslashes content % 2 = 0 then some content
    else none
  | .escTriple src => unescape src
  | .escSingle src => unescape src
  | .concatLit a b =>
    match decodeLit a, decodeLit b with
    | some x, some y => some (x ++ y)
    | _, _ => none

/-- Modelled from the spec: prefer a verbatim (raw) literal when the value
contains backslashes, except when it ends in an odd number of
backslashes, in which case fall back to the raw rendering of everything
but the final backslash concatenated with that backslash as a separate
escaped literal. -/
def renderStringConst (v : List Char) : PyLit :=
  if trailingBackslashes v % 2 = 1 then
    .concatLit (.rawTriple v.dropLast) (.escSingle ['\\', '\\'])
  else if v.contains '\\' then
    .rawTriple v
  else
    .escTriple (escapeChars v)

lemma startsTQ_append (xs ys : List Char) (h : startsTQ xs = true) :
    startsTQ (xs ++ ys) = true := by
  match xs, h with
  | [], h => exact (Bool.false_ne_true h).elim
  | [a], h => exact (Bool.false_ne_true h).elim
  | [a, b], h => exact (Bool.false_ne_true h).elim
  | a :: b :: c :: rest, h => exact h

lemma containsTQ_append (xs ys : List Char) (h : containsTQ xs = true) :
    containsTQ (xs ++ ys) = true := by
  induction xs with
  | nil => exact (Bool.false_ne_true h).elim
  | cons a t ih =>
    rw [containsTQ] at h
    rcases Bool.or_eq_true_iff.mp h with h1 | h2
    · rw [List.cons_append, containsTQ]
      rw [← List.cons_append]
      exact Bool.or_eq_true_iff.mpr (Or.inl (startsTQ_append (a :: t) ys h1))
    · rw [List.cons_append, containsTQ]
      exact Bool.or_eq_true_iff.mpr (Or.inr (ih h2))

/-- C9 (spec-modelled): a string constant ending in an odd run of
backslashes is never rendered as a single verbatim literal — it becomes
the raw rendering of all but the final backslash concatenated with that
backslash as a separate escaped literal — and decoding the rendered
expression reproduces the exact original value, trailing backslash
included; a backslash-containing value whose trailing run is even is
rendered as a single verbatim literal that also decodes to the original
value. -/
theorem literal_renderer_backslash (v : List Char) (hq : containsTQ v = false) :
    (trailingBackslashes v % 2 = 1 →
      renderStringConst v =
        .concatLit (.rawTriple v.dropLast) (.escSingle ['\\', '\\']) ∧
      (∀ c, renderStringConst v ≠ .rawTriple c) ∧
      decodeLit (renderStringConst v) = some v) ∧
    (trailingBackslashes v % 2 = 0 → v.contains '\\' = true →
      renderStringConst v = .rawTriple v ∧
      decodeLit (renderStringConst v) = some v) := by
  constructor
  · intro hodd
    have hrender : renderStringConst v =
        .concatLit (.rawTriple v.dropLast) (.escSingle ['\\', '\\']) := by
      unfold renderStringConst
      rw [if_pos hodd]
    have hnotraw : ∀ c, renderStringConst v ≠ PyLit.rawTriple c := by
      intro c hc
      rw [hrender] at hc
      cases hc
    refine ⟨hrender, hnotraw, ?_⟩
    cases hr : v.reverse with
    | nil =>
      rw [List.reverse_eq_nil_iff.mp hr] at hodd
      cases hodd
    | cons c t =>
      have hc : c = '\\' := by
        by_contra hne
        rw [trailingBackslashes, hr, leadCount, if_neg hne] at hodd
        cases hodd
      subst hc
      have hv : v = t.reverse ++ ['\\'] := by
        have := congrArg List.reverse hr
        rw [List.reverse_reverse, List.reverse_cons] at this
        exact this
      have hdrop : v.dropLast = t.reverse := by
        rw [hv]
        exact List.dropLast_concat
      have htb : trailingBackslashes t.reverse % 2 = 0 := by
        have hleads : trailingBackslashes v = leadCount '\\' t + 1 := by
          rw [trailingBackslashes, hr, leadCount, if_pos rfl]
        rw [trailingBackslashes, List.reverse_reverse]
        rw [hleads] at hodd
        omega
      have hTQdrop : containsTQ t.reverse = false := by
        cases hcq : containsTQ t.reverse with
        | false => rfl
        | true =>
          rw [hv] at hq
          rw [containsTQ_append t.reverse ['\\'] hcq] at hq
          cases hq
      rw [hrender]
      simp only [decodeLit, hdrop, hTQdrop, htb, and_self, if_pos]
      rw [show unescape ['\\', '\\'] = some ['\\'] from rfl]
      simp only [← hv]
  · intro heven hbs
    have hrender : renderStringConst v = .rawTriple v := by
      unfold renderStringConst
      rw [if_neg (by omega), if_pos hbs]
    refine ⟨hrender, ?_⟩
    rw [hrender]
    simp only [decodeLit, hq, heven, and_self, if_pos]

/-- Witness for `literal_renderer_backslash`: a value ending in three
backslashes (odd, as in `ENDS_WITH_ODD_BACKSLASH`) and a value ending in
two backslashes (even, safe verbatim). -/
theorem literal_renderer_backslash_witness :
    renderStringConst ("Odd: \\\\\\").data =
      .concatLit (.rawTriple (("Odd: \\\\\\").data.dropLast)) (.escSingle ['\\', '\\']) ∧
    decodeLit (renderStringConst ("Odd: \\\\\\").data) = some ("Odd: \\\\\\").data ∧
    renderStringConst ("Two: \\\\").data = .rawTriple ("Two: \\\\").data ∧
    decodeLit (renderStringConst ("Two: \\\\").data) = some ("Two: \\\\").data := by
  have h1 := (literal_renderer_backslash ("Odd: \\\\\\").data (by rfl)).1 (by rfl)
  have h2 := (literal_renderer_backslash ("Two: \\\\").data (by rfl)).2 (by rfl) (by rfl)
  exact ⟨h1.1, h1.2.2, h2.1, h2.2⟩

/-- Witness for `case_conversion_resolution`: the explicit rename
`camelCaseStringField` wins over the kebab-case container convention, as
in `anonymous_struct_with_rename/output.py`. -/
theorem case_conversion_resolution_witness :
    resolveWireName (some "camelCaseStringField") .kebab "camel_case_string_field" =
      "camelCaseStringField" :=
  (case_conversion_resolution "camelCaseStringField" "camel_case_string_field" .kebab).2.2.1

/-- Witness for `bool_elements_pass_int_check` at `[True, False]`. -/
theorem bool_elements_pass_int_check_witness :
    deserialize_binary_data (.pyList ([true, false].map PyVal.pyBool)) =
      .ok ([true, false].map fun b => if b then 1 else 0) :=
  bool_elements_pass_int_check.1 [true, false]
